import Mathlib

/-!
Verification of the configuration-assembly pipeline in `src/helpers/config.js`
(the `Config` entry point and its helpers `cleanDeep`, `extractPeersList`,
`validateForce`, plus the lodash `_.merge` deep merge it relies on).

JavaScript values flowing through this module are JSON-like data: strings,
numbers, booleans, `null`, `undefined`, `NaN`, arrays, and plain objects.
They are modelled by the inductive type `JVal`.  Objects are association
lists in insertion order (JavaScript object key order for the non-numeric
keys this module uses).  JavaScript numbers are modelled as integers: the
module only ever handles ports, rounds and flag values, never fractional
arithmetic; the one coercion it performs (unary `+` on a CLI string) is
modelled on the decimal-digit grammar, everything else coercing to `NaN`.
-/

inductive JVal where
  | str (s : String)
  | num (n : Int)
  | bool (b : Bool)
  | null
  | undef
  | nan
  | arr (elems : List JVal)
  | obj (fields : List (String × JVal))

/-! Decidable equality for `JVal`, by mutual recursion over the nested lists. -/

mutual
def decEqJ : (a b : JVal) → Decidable (a = b)
  | JVal.str a, JVal.str b =>
      if h : a = b then isTrue (by rw [h]) else isFalse (fun hh => h (by injection hh))
  | JVal.num a, JVal.num b =>
      if h : a = b then isTrue (by rw [h]) else isFalse (fun hh => h (by injection hh))
  | JVal.bool a, JVal.bool b =>
      if h : a = b then isTrue (by rw [h]) else isFalse (fun hh => h (by injection hh))
  | JVal.null, JVal.null => isTrue rfl
  | JVal.undef, JVal.undef => isTrue rfl
  | JVal.nan, JVal.nan => isTrue rfl
  | JVal.arr a, JVal.arr b =>
      match decEqArrJ a b with
      | isTrue h => isTrue (by rw [h])
      | isFalse h => isFalse (fun hh => h (by injection hh))
  | JVal.obj a, JVal.obj b =>
      match decEqObjJ a b with
      | isTrue h => isTrue (by rw [h])
      | isFalse h => isFalse (fun hh => h (by injection hh))
  | JVal.str _, JVal.num _ => isFalse (fun h => JVal.noConfusion h)
  | JVal.str _, JVal.bool _ => isFalse (fun h => JVal.noConfusion h)
  | JVal.str _, JVal.null => isFalse (fun h => JVal.noConfusion h)
  | JVal.str _, JVal.undef => isFalse (fun h => JVal.noConfusion h)
  | JVal.str _, JVal.nan => isFalse (fun h => JVal.noConfusion h)
  | JVal.str _, JVal.arr _ => isFalse (fun h => JVal.noConfusion h)
  | JVal.str _, JVal.obj _ => isFalse (fun h => JVal.noConfusion h)
  | JVal.num _, JVal.str _ => isFalse (fun h => JVal.noConfusion h)
  | JVal.num _, JVal.bool _ => isFalse (fun h => JVal.noConfusion h)
  | JVal.num _, JVal.null => isFalse (fun h => JVal.noConfusion h)
  | JVal.num _, JVal.undef => isFalse (fun h => JVal.noConfusion h)
  | JVal.num _, JVal.nan => isFalse (fun h => JVal.noConfusion h)
  | JVal.num _, JVal.arr _ => isFalse (fun h => JVal.noConfusion h)
  | JVal.num _, JVal.obj _ => isFalse (fun h => JVal.noConfusion h)
  | JVal.bool _, JVal.str _ => isFalse (fun h => JVal.noConfusion h)
  | JVal.bool _, JVal.num _ => isFalse (fun h => JVal.noConfusion h)
  | JVal.bool _, JVal.null => isFalse (fun h => JVal.noConfusion h)
  | JVal.bool _, JVal.undef => isFalse (fun h => JVal.noConfusion h)
  | JVal.bool _, JVal.nan => isFalse (fun h => JVal.noConfusion h)
  | JVal.bool _, JVal.arr _ => isFalse (fun h => JVal.noConfusion h)
  | JVal.bool _, JVal.obj _ => isFalse (fun h => JVal.noConfusion h)
  | JVal.null, JVal.str _ => isFalse (fun h => JVal.noConfusion h)
  | JVal.null, JVal.num _ => isFalse (fun h => JVal.noConfusion h)
  | JVal.null, JVal.bool _ => isFalse (fun h => JVal.noConfusion h)
  | JVal.null, JVal.undef => isFalse (fun h => JVal.noConfusion h)
  | JVal.null, JVal.nan => isFalse (fun h => JVal.noConfusion h)
  | JVal.null, JVal.arr _ => isFalse (fun h => JVal.noConfusion h)
  | JVal.null, JVal.obj _ => isFalse (fun h => JVal.noConfusion h)
  | JVal.undef, JVal.str _ => isFalse (fun h => JVal.noConfusion h)
  | JVal.undef, JVal.num _ => isFalse (fun h => JVal.noConfusion h)
  | JVal.undef, JVal.bool _ => isFalse (fun h => JVal.noConfusion h)
  | JVal.undef, JVal.null => isFalse (fun h => JVal.noConfusion h)
  | JVal.undef, JVal.nan => isFalse (fun h => JVal.noConfusion h)
  | JVal.undef, JVal.arr _ => isFalse (fun h => JVal.noConfusion h)
  | JVal.undef, JVal.obj _ => isFalse (fun h => JVal.noConfusion h)
  | JVal.nan, JVal.str _ => isFalse (fun h => JVal.noConfusion h)
  | JVal.nan, JVal.num _ => isFalse (fun h => JVal.noConfusion h)
  | JVal.nan, JVal.bool _ => isFalse (fun h => JVal.noConfusion h)
  | JVal.nan, JVal.null => isFalse (fun h => JVal.noConfusion h)
  | JVal.nan, JVal.undef => isFalse (fun h => JVal.noConfusion h)
  | JVal.nan, JVal.arr _ => isFalse (fun h => JVal.noConfusion h)
  | JVal.nan, JVal.obj _ => isFalse (fun h => JVal.noConfusion h)
  | JVal.arr _, JVal.str _ => isFalse (fun h => JVal.noConfusion h)
  | JVal.arr _, JVal.num _ => isFalse (fun h => JVal.noConfusion h)
  | JVal.arr _, JVal.bool _ => isFalse (fun h => JVal.noConfusion h)
  | JVal.arr _, JVal.null => isFalse (fun h => JVal.noConfusion h)
  | JVal.arr _, JVal.undef => isFalse (fun h => JVal.noConfusion h)
  | JVal.arr _, JVal.nan => isFalse (fun h => JVal.noConfusion h)
  | JVal.arr _, JVal.obj _ => isFalse (fun h => JVal.noConfusion h)
  | JVal.obj _, JVal.str _ => isFalse (fun h => JVal.noConfusion h)
  | JVal.obj _, JVal.num _ => isFalse (fun h => JVal.noConfusion h)
  | JVal.obj _, JVal.bool _ => isFalse (fun h => JVal.noConfusion h)
  | JVal.obj _, JVal.null => isFalse (fun h => JVal.noConfusion h)
  | JVal.obj _, JVal.undef => isFalse (fun h => JVal.noConfusion h)
  | JVal.obj _, JVal.nan => isFalse (fun h => JVal.noConfusion h)
  | JVal.obj _, JVal.arr _ => isFalse (fun h => JVal.noConfusion h)

def decEqArrJ : (a b : List JVal) → Decidable (a = b)
  | [], [] => isTrue rfl
  | [], _ :: _ => isFalse (fun h => List.noConfusion h)
  | _ :: _, [] => isFalse (fun h => List.noConfusion h)
  | a :: as, b :: bs =>
      match decEqJ a b, decEqArrJ as bs with
      | isTrue h1, isTrue h2 => isTrue (by rw [h1, h2])
      | isFalse h1, _ => isFalse (fun hh => h1 (by injection hh))
      | _, isFalse h2 => isFalse (fun hh => h2 (by injection hh))

def decEqObjJ : (a b : List (String × JVal)) → Decidable (a = b)
  | [], [] => isTrue rfl
  | [], _ :: _ => isFalse (fun h => List.noConfusion h)
  | _ :: _, [] => isFalse (fun h => List.noConfusion h)
  | (k, v) :: as, (k', v') :: bs =>
      if hk : k = k' then
        match decEqJ v v', decEqObjJ as bs with
        | isTrue h1, isTrue h2 => isTrue (by rw [hk, h1, h2])
        | isFalse h1, _ =>
            isFalse (fun hh => h1 (by injection hh with h3 h4; exact congrArg Prod.snd h3))
        | _, isFalse h2 => isFalse (fun hh => h2 (by injection hh))
      else
        isFalse (fun hh => hk (by injection hh with h3 h4; exact congrArg Prod.fst h3))
end

instance : DecidableEq JVal := decEqJ

/-- JavaScript truthiness: `false`, `0`, `NaN`, the empty string, `null`
and `undefined` are falsy; every other value (arrays and objects included)
is truthy. -/
def truthy : JVal → Bool
  | JVal.str s => s ≠ ""
  | JVal.num n => n ≠ 0
  | JVal.bool b => b
  | JVal.null => false
  | JVal.undef => false
  | JVal.nan => false
  | JVal.arr _ => true
  | JVal.obj _ => true

/-- JavaScript `a || b`. -/
def jsOr (a b : JVal) : JVal := if truthy a then a else b

/-- JavaScript strict equality `===` on the values this module compares:
scalars are compared by value; `NaN === x` is always false; arrays and
objects are compared by reference, which for values originating from
distinct parsed files is conservatively modelled as false (the module only
ever applies `===` to strings, via `indexOf`, and to `NODE_ENV`). -/
def jsStrictEq (a b : JVal) : Bool :=
  match a, b with
  | JVal.nan, _ => false
  | _, JVal.nan => false
  | JVal.str s, JVal.str t => s = t
  | JVal.num m, JVal.num n => m = n
  | JVal.bool x, JVal.bool y => x = y
  | JVal.null, JVal.null => true
  | JVal.undef, JVal.undef => true
  | _, _ => false

/-- First-match association-list lookup (JavaScript property read on an
object literal; keys in the modelled objects are unique). -/
def lookupJ (k : String) : List (String × JVal) → Option JVal
  | [] => none
  | (k', v) :: rest => if k' = k then some v else lookupJ k rest

/-- JavaScript property assignment `o[k] = v` on an association list:
replaces the value at the first occurrence of `k`, or appends the key in
insertion order when absent. -/
def setKey (l : List (String × JVal)) (k : String) (v : JVal) : List (String × JVal) :=
  match l with
  | [] => [(k, v)]
  | (k', v') :: rest => if k' = k then (k, v) :: rest else (k', v') :: setKey rest k v

/-- JavaScript property read `v[k]`: `undefined` when the key is absent.
The module only reads properties of values it assumes to be objects. -/
def getKey (v : JVal) (k : String) : JVal :=
  match v with
  | JVal.obj kvs => (lookupJ k kvs).getD JVal.undef
  | _ => JVal.undef

/-- JavaScript property write `v[k] = x` at the `JVal` level; the module
only writes properties of values it assumes to be objects, so non-objects
are returned unchanged. -/
def setKeyJ (v : JVal) (k : String) (x : JVal) : JVal :=
  match v with
  | JVal.obj kvs => JVal.obj (setKey kvs k x)
  | _ => v

def isUndef : JVal → Bool
  | JVal.undef => true
  | _ => false

def isScalar : JVal → Bool
  | JVal.arr _ => false
  | JVal.obj _ => false
  | _ => true

/-- The `typeof peers === 'string'` test of `extractPeersList`. -/
def isStr : JVal → Bool
  | JVal.str _ => true
  | _ => false

/-- `_.isPlainObject(value) && _.isEmpty(value)`. -/
def isEmptyObjV : JVal → Bool
  | JVal.obj [] => true
  | _ => false

/-- `Array.isArray(value) && !value.length`. -/
def isEmptyArrV : JVal → Bool
  | JVal.arr [] => true
  | _ => false

/-- `value === ''`. -/
def isEmptyStrV : JVal → Bool
  | JVal.str "" => true
  | _ => false

def isNullV : JVal → Bool
  | JVal.null => true
  | _ => false

/-! ## The Empty-Value Pruner: `cleanDeep` (src/helpers/config.js lines 135-189) -/

/-- The five independently toggleable flags of `cleanDeep`, each default-on,
exactly as in the destructured default parameter of the source. -/
structure PruneOptions where
  emptyArrays : Bool := true
  emptyObjects : Bool := true
  emptyStrings : Bool := true
  nullValues : Bool := true
  undefinedValues : Bool := true

/-- The cascade of `return`-guards of `cleanDeep`'s transform body, in
source order: a (recursed) value is dropped when the matching flag is on
and the value is an empty object, empty array, empty string, `null` or
`undefined`; otherwise it is kept. -/
def keepValue (o : PruneOptions) (v : JVal) : Bool :=
  if o.emptyObjects && isEmptyObjV v then false
  else if o.emptyArrays && isEmptyArrV v then false
  else if o.emptyStrings && isEmptyStrV v then false
  else if o.nullValues && isNullV v then false
  else if o.undefinedValues && isUndef v then false
  else true

mutual
/-- `cleanDeep` from the source: recurse into arrays and plain objects,
then drop the children that the enabled flags classify as empty.  The
source guards every recursive call with `Array.isArray`/`_.isPlainObject`,
so scalars are passed through unchanged; every call site in the repository
passes a container. -/
def cleanDeep (o : PruneOptions) : JVal → JVal
  | JVal.arr xs => JVal.arr (cleanArr o xs)
  | JVal.obj kvs => JVal.obj (cleanObj o kvs)
  | v => v

/-- The `_.transform` pass of `cleanDeep` over an array: kept children are
pushed in original order, so gaps close. -/
def cleanArr (o : PruneOptions) : List JVal → List JVal
  | [] => []
  | v :: rest =>
      let v' := cleanDeep o v
      if keepValue o v' then v' :: cleanArr o rest else cleanArr o rest

/-- The `_.transform` pass of `cleanDeep` over an object: kept children are
reassigned under their original key. -/
def cleanObj (o : PruneOptions) : List (String × JVal) → List (String × JVal)
  | [] => []
  | (k, v) :: rest =>
      let v' := cleanDeep o v
      if keepValue o v' then (k, v') :: cleanObj o rest else cleanObj o rest
end

/-! ## The Precedence Merger: lodash `_.merge` (used at src/helpers/config.js line 85)

`_.merge(object, ...sources)` folds `baseMerge` left-to-right.  For each
key of a source: when the source value is an array or plain object it is
merged recursively into the destination value (arrays with arrays merge
index-by-index, keeping the longer tail; a plain-object source value lands
on a clone of itself when the destination value is not an object);
otherwise the source value is assigned — except that a source value of
`undefined` never overwrites an existing destination value.  The one
lodash corner not representable in JSON data — an array destination being
overlaid by a plain-object source, which grafts named properties onto the
array object — is modelled as replacement; no configuration source
produces that shape. -/

mutual
def mergeVal : JVal → JVal → JVal
  | JVal.obj d, JVal.obj s => JVal.obj (mergeObj d s)
  | JVal.arr d, JVal.arr s => JVal.arr (mergeArr d s)
  | _, s => s

def mergeObj (d : List (String × JVal)) : List (String × JVal) → List (String × JVal)
  | [] => d
  | (k, sv) :: rest =>
      mergeObj
        (if isUndef sv then
          (if (lookupJ k d).isSome then d else setKey d k JVal.undef)
         else setKey d k (mergeVal ((lookupJ k d).getD JVal.undef) sv))
        rest

def mergeArr : List JVal → List JVal → List JVal
  | d, [] => d
  | [], s => s
  | dv :: d, sv :: s =>
      (if isUndef sv then dv else mergeVal dv sv) :: mergeArr d s
end

/-- One step of `baseMerge` for a single source entry `(k, sv)`; `mergeObj`
processes the source entries left to right with this step. -/
def mergeStep (d : List (String × JVal)) (k : String) (sv : JVal) : List (String × JVal) :=
  if isUndef sv then
    (if (lookupJ k d).isSome then d else setKey d k JVal.undef)
  else setKey d k (mergeVal ((lookupJ k d).getD JVal.undef) sv)

/-! ## The Peer List Parser: `extractPeersList` (src/helpers/config.js lines 122-133) -/

/-- JavaScript `String.prototype.split` with a one-character separator
(the source only splits on `','` and `':'`): the empty string yields one
empty segment, and adjacent separators yield empty segments. -/
def splitOnChar (sep : Char) : List Char → List (List Char)
  | [] => [[]]
  | c :: rest =>
      let r := splitOnChar sep rest
      if c = sep then [] :: r
      else
        match r with
        | [] => [[c]]
        | g :: gs => (c :: g) :: gs

def jsSplit (s : String) (sep : Char) : List String :=
  (splitOnChar sep s.data).map (fun cs => String.mk cs)

/-- One parsed peer entry: `ip` is always the string before the first `:`;
`wsPort` is either the split-off port token (still a string) or the
caller-supplied default, which may be a number or a string. -/
structure PeerRecord where
  ip : String
  wsPort : JVal
  deriving DecidableEq

/-- The per-entry body of `extractPeersList`'s `map`: split the entry on
`':'`; `ip` is the shifted first token and `wsPort` is
`peer.shift() || defaultPort`, so a missing or empty port token falls back
to the default. -/
def extractPeerEntry (defaultPort : JVal) (entry : String) : PeerRecord :=
  let parts := jsSplit entry ':'
  { ip := parts.headD ""
    wsPort :=
      match parts.drop 1 with
      | [] => defaultPort
      | p :: _ => if p = "" then defaultPort else JVal.str p }

/-- `extractPeersList` from the source: a string input is split on `','`
and each entry parsed by `extractPeerEntry`; any non-string input yields
the empty list. -/
def extractPeersList (peers : JVal) (defaultPort : JVal) : List PeerRecord :=
  match peers with
  | JVal.str s => (jsSplit s ',').map (extractPeerEntry defaultPort)
  | _ => []

/-! ## The Safety Override: `validateForce` (src/helpers/config.js lines 196-205) -/

/-- JavaScript `Array.prototype.indexOf`: index of the first element
strictly equal (`===`) to the argument, `-1` when none is. -/
def jsIndexOf (xs : List JVal) (x : JVal) : Int :=
  match xs with
  | [] => -1
  | y :: rest =>
      if jsStrictEq y x then 0
      else
        let r := jsIndexOf rest x
        if r = -1 then -1 else r + 1

/-- `validateForce` from the source: when `configData.forging.force` is
truthy and `configData.constants.nethashes.indexOf(configData.nethash)`
is not `-1`, set `forging.force` to `false` (and log a notice, which has
no effect on the data); otherwise leave the config untouched.  The source
would throw if `nethashes` were not an array; the constants files always
provide one, and a non-array is modelled as the empty list (no match, no
mutation). -/
def validateForce (configData : JVal) : JVal :=
  if truthy (getKey (getKey configData "forging") "force") then
    let nethashes :=
      match getKey (getKey configData "constants") "nethashes" with
      | JVal.arr xs => xs
      | _ => []
    if jsIndexOf nethashes (getKey configData "nethash") ≠ -1 then
      setKeyJ configData "forging" (setKeyJ (getKey configData "forging") "force" (JVal.bool false))
    else configData
  else configData

/-! ## The orchestration: `Config` (src/helpers/config.js lines 23-109)

External collaborators are passed in as data or functions: the commander
option parser is a pure function from `argv` to the parsed options, the
file system and the `require` cache are functions from a path to the
parsed content (`loadJSONFile`'s fatal exit on unreadable files is the
loader's own behaviour, outside the merge/clean/validate/override core),
the z_schema validator is a function returning the pass flag together
with `getLastErrors()`, and the random nonce is an input.  `process.exit(1)`
after reporting the validation errors is modelled as an `Except.error`
carrying the exit code and the reported errors. -/

/-- The parsed commander option values read by `Config`.  Each is a raw
string when the flag was given and `undefined` otherwise (`--network` and
`--peers` may also surface as `true` or as an array, hence `JVal`).
No `--database` option is declared, so `program.database` is always
`undefined` in the source; it is kept as a field to mirror the property
read at line 70. -/
structure ProgramOpts where
  config : JVal := JVal.undef
  network : JVal := JVal.undef
  port : JVal := JVal.undef
  address : JVal := JVal.undef
  peers : JVal := JVal.undef
  log : JVal := JVal.undef
  snapshot : JVal := JVal.undef
  database : JVal := JVal.undef

/-- The environment variables read by `Config`; each is a string or
`undefined`. -/
structure EnvVars where
  adamantNetwork : JVal := JVal.undef
  adamantConfigFile : JVal := JVal.undef
  adamantHttpPort : JVal := JVal.undef
  adamantConsoleLogLevel : JVal := JVal.undef
  adamantPeers : JVal := JVal.undef
  nodeEnv : JVal := JVal.undef

/-- The two fields of `packageJson` that `Config` reads into the runtime
source. -/
structure PackageJson where
  version : JVal := JVal.undef
  minVersion : JVal := JVal.undef

/-- Everything `Config` consumes besides the `parseCommandLineOptions`
flag. -/
structure ConfigParams where
  parseArgv : List String → ProgramOpts
  argv : List String
  env : EnvVars
  fs : String → JVal
  req : String → JVal
  validate : JVal → Bool × List String
  pkg : PackageJson
  rootPath : String
  nonce : String

/-! JavaScript string coercion for the values interpolated into file
paths (`network`, the custom config path).  An array joins its elements
with `,`, `null` and `undefined` joining as empty strings. -/

mutual
def jsToString : JVal → String
  | JVal.str s => s
  | JVal.num n => toString n
  | JVal.bool b => if b then "true" else "false"
  | JVal.null => "null"
  | JVal.undef => "undefined"
  | JVal.nan => "NaN"
  | JVal.arr xs => jsArrJoin xs
  | JVal.obj _ => "[object Object]"

/-- JavaScript `Array.prototype.toString`: elements joined with `,`,
`null` and `undefined` elements rendered empty. -/
def jsArrJoin : List JVal → String
  | [] => ""
  | [JVal.null] => ""
  | [JVal.undef] => ""
  | [x] => jsToString x
  | JVal.null :: rest => "," ++ jsArrJoin rest
  | JVal.undef :: rest => "," ++ jsArrJoin rest
  | x :: rest => jsToString x ++ "," ++ jsArrJoin rest
end

/-- Reads a decimal-digit string as a natural number; the empty string
reads as `0`, as for JavaScript `Number('')`. -/
def parseDecDigits (cs : List Char) : Option Nat :=
  cs.foldl
    (fun acc c =>
      match acc with
      | none => none
      | some n => if c.isDigit then some (n * 10 + (c.toNat - 48)) else none)
    (some 0)

/-- JavaScript unary `+` as applied to `program.port` (a CLI string, a
number, or `undefined`): decimal strings convert to their value, the empty
string to `0`, `null` to `0`, booleans to `0`/`1`, and everything
non-numeric to `NaN`.  The full JavaScript numeric grammar (signs, floats,
hex) never reaches this module and coerces to `NaN` here. -/
def jsUnaryPlus : JVal → JVal
  | JVal.num n => JVal.num n
  | JVal.str s =>
      (match parseDecDigits s.data with
       | some n => JVal.num (Int.ofNat n)
       | none => JVal.nan)
  | JVal.bool b => JVal.num (if b then 1 else 0)
  | JVal.null => JVal.num 0
  | JVal.undef => JVal.nan
  | JVal.nan => JVal.nan
  | JVal.arr _ => JVal.nan
  | JVal.obj _ => JVal.nan

/-- Line 37-39: the chain at lines 24-36 ends in `.parse(process.argv)`,
which runs unconditionally; the guarded call re-parses the same `argv`. -/
def configProgram (P : ConfigParams) (parseCommandLineOptions : Bool) : ProgramOpts :=
  let program0 := P.parseArgv P.argv
  if parseCommandLineOptions then P.parseArgv P.argv else program0

/-- Line 40: `program.network || process.env.ADAMANT_NETWORK || 'devnet'`. -/
def resolvedNetwork (program : ProgramOpts) (env : EnvVars) : JVal :=
  jsOr program.network (jsOr env.adamantNetwork (JVal.str "devnet"))

/-- Lines 57-64: the runtime-generated source. -/
def runtimeConfig (network : JVal) (rootPath nonce : String) (pkg : PackageJson)
    (genesisBlock : JVal) : JVal :=
  JVal.obj
    [("network", network),
     ("root", JVal.str rootPath),
     ("nonce", JVal.str nonce),
     ("version", pkg.version),
     ("minVersion", pkg.minVersion),
     ("nethash", getKey genesisBlock "payloadHash")]

/-- Lines 66-82: the command-line/environment-derived source, before
pruning. -/
def commandLineConfig (program : ProgramOpts) (env : EnvVars)
    (defaultConfig customConfig : JVal) : JVal :=
  JVal.obj
    [("port", jsOr (jsUnaryPlus program.port) (jsOr env.adamantHttpPort JVal.null)),
     ("address", program.address),
     ("consoleLogLevel", jsOr program.log env.adamantConsoleLogLevel),
     ("db", JVal.obj [("database", program.database)]),
     ("loading", JVal.obj [("snapshotRound", program.snapshot)]),
     ("peers", JVal.obj
        [("list",
          JVal.arr
            ((extractPeersList (jsOr program.peers env.adamantPeers)
                (jsOr (jsUnaryPlus program.port)
                  (jsOr env.adamantHttpPort
                    (jsOr (getKey customConfig "port") (getKey defaultConfig "port"))))).map
              (fun p => JVal.obj [("ip", JVal.str p.ip), ("wsPort", p.wsPort)])))]),
     ("coverage", JVal.bool (jsStrictEq env.nodeEnv (JVal.str "test")))]

/-- Lines 42-55: the four loads keyed by the resolved network and the
config-path fallback chain. -/
def configGenesisBlock (P : ConfigParams) (network : JVal) : JVal :=
  P.fs ("./config/" ++ jsToString network ++ "/genesisBlock.json")

def configDefaultConfig (P : ConfigParams) : JVal :=
  P.fs "config/default/config.json"

def configCustomConfig (P : ConfigParams) (program : ProgramOpts) (network : JVal) : JVal :=
  P.fs (jsToString
    (jsOr program.config
      (jsOr P.env.adamantConfigFile
        (JVal.str ("config/" ++ jsToString network ++ "/config.json")))))

/-- Lines 66-90: prune the command-line-derived source with the default
flags, then `_.merge(defaultConfig, customConfig, runtimeConfig,
commandLineConfig)`. -/
def configMerged (P : ConfigParams) (parseCommandLineOptions : Bool) : JVal :=
  let program := configProgram P parseCommandLineOptions
  let network := resolvedNetwork program P.env
  let genesisBlock := configGenesisBlock P network
  let defaultConfig := configDefaultConfig P
  let customConfig := configCustomConfig P program network
  let runtime := runtimeConfig network P.rootPath P.nonce P.pkg genesisBlock
  let cli := cleanDeep {} (commandLineConfig program P.env defaultConfig customConfig)
  mergeVal (mergeVal (mergeVal defaultConfig customConfig) runtime) cli

/-- Lines 99-105: on the valid branch, attach `genesisBlock`, the merged
constants and the merged exceptions. -/
def configAttached (P : ConfigParams) (parseCommandLineOptions : Bool) : JVal :=
  let program := configProgram P parseCommandLineOptions
  let network := resolvedNetwork program P.env
  let genesisBlock := configGenesisBlock P network
  let defaultConstants := P.req "../config/default/constants.js"
  let customConstants := P.req ("../config/" ++ jsToString network ++ "/constants.js")
  let defaultExceptions := P.req "../config/default/exceptions.js"
  let customExceptions := P.req ("../config/" ++ jsToString network ++ "/exceptions.js")
  let a1 := setKeyJ (configMerged P parseCommandLineOptions) "genesisBlock" genesisBlock
  let a2 := setKeyJ a1 "constants" (mergeVal defaultConstants customConstants)
  setKeyJ a2 "exceptions" (mergeVal defaultExceptions customExceptions)

/-- `Config` from the source: assemble and merge the four sources,
validate, and either exit with status 1 after reporting every validation
error, or attach the bundles, run the Safety Override and return the
validated config. -/
def Config (P : ConfigParams) (parseCommandLineOptions : Bool) :
    Except (Nat × List String) JVal :=
  match P.validate (configMerged P parseCommandLineOptions) with
  | (false, errors) => Except.error (1, errors)
  | (true, _) => Except.ok (validateForce (configAttached P parseCommandLineOptions))

/-! ## Specification-side definitions

These definitions transcribe what the specification says, to be compared
against the source-derived definitions above. -/

/-- The five "empty" shapes of the spec, each guarded by its flag: empty
sequence, empty mapping, empty string, `null`, `undefined`. -/
def isEmptyEnabled (o : PruneOptions) (v : JVal) : Bool :=
  (o.emptyArrays && isEmptyArrV v) || (o.emptyObjects && isEmptyObjV v) ||
  (o.emptyStrings && isEmptyStrV v) || (o.nullValues && isNullV v) ||
  (o.undefinedValues && isUndef v)

/-- Key-level outcome of the deep merge for one key: the destination value
when the source lacks the key; a recursive merge when both values are
mappings or both are sequences; the destination value when the source
value is explicitly `undefined`; the source value otherwise. -/
def mergeKeySpec : Option JVal → Option JVal → Option JVal
  | dv, none => dv
  | none, some sv => some sv
  | some (JVal.obj dd), some (JVal.obj ss) => some (JVal.obj (mergeObj dd ss))
  | some (JVal.arr dd), some (JVal.arr ss) => some (JVal.arr (mergeArr dd ss))
  | some dv, some JVal.undef => some dv
  | some _, some sv => some sv

/-! ## Helper lemmas -/

theorem lookupJ_setKey_self (l : List (String × JVal)) (k : String) (v : JVal) :
    lookupJ k (setKey l k v) = some v := by
  induction l with
  | nil => simp [setKey, lookupJ]
  | cons e rest ih =>
      obtain ⟨k', v'⟩ := e
      by_cases h : k' = k
      · subst h; simp [setKey, lookupJ]
      · simp [setKey, lookupJ, h, ih]

theorem lookupJ_setKey_ne (l : List (String × JVal)) (kw k : String) (v : JVal)
    (h : kw ≠ k) : lookupJ k (setKey l kw v) = lookupJ k l := by
  induction l with
  | nil => simp [setKey, lookupJ, h]
  | cons e rest ih =>
      obtain ⟨k', v'⟩ := e
      by_cases hk : k' = kw
      · subst hk; simp [setKey, lookupJ, h, ih]
      · by_cases hkk : k' = k
        · subst hkk; simp [setKey, lookupJ, hk]
        · simp [setKey, lookupJ, hk, hkk, ih]

theorem mergeObj_nil (d : List (String × JVal)) : mergeObj d [] = d := rfl

theorem mergeObj_cons (d : List (String × JVal)) (k : String) (sv : JVal)
    (rest : List (String × JVal)) :
    mergeObj d ((k, sv) :: rest) = mergeObj (mergeStep d k sv) rest := rfl

theorem mergeVal_undef_left (sv : JVal) : mergeVal JVal.undef sv = sv := by
  cases sv <;> rfl

theorem lookupJ_mergeStep_self (d : List (String × JVal)) (k : String) (sv : JVal) :
    lookupJ k (mergeStep d k sv) = mergeKeySpec (lookupJ k d) (some sv) := by
  unfold mergeStep
  cases hsv : isUndef sv with
  | true =>
      have hu : sv = JVal.undef := by cases sv <;> simp_all [isUndef]
      subst hu
      simp only [if_pos rfl]
      cases hd : lookupJ k d with
      | some dv => simp [hd]; cases dv <;> simp [mergeKeySpec]
      | none => simp [hd, lookupJ_setKey_self, mergeKeySpec]
  | false =>
      simp only [hsv, Bool.false_eq_true, if_false, lookupJ_setKey_self]
      cases hd : lookupJ k d with
      | none =>
          simp only [Option.getD_none, mergeVal_undef_left]
          cases sv <;> simp [mergeKeySpec]
      | some dv =>
          simp only [Option.getD_some]
          cases dv <;> cases sv <;> simp_all [mergeKeySpec, mergeVal, isUndef]

theorem lookupJ_mergeStep_ne (d : List (String × JVal)) (kw k : String) (sv : JVal)
    (h : kw ≠ k) : lookupJ k (mergeStep d kw sv) = lookupJ k d := by
  unfold mergeStep
  cases hsv : isUndef sv with
  | true =>
      simp only [if_pos rfl]
      cases hd : (lookupJ kw d).isSome <;> simp [hd, lookupJ_setKey_ne _ _ _ _ h]
  | false =>
      simp [hsv, lookupJ_setKey_ne _ _ _ _ h]

theorem lookupJ_eq_none_of_not_mem (k : String) (l : List (String × JVal))
    (h : k ∉ l.map Prod.fst) : lookupJ k l = none := by
  induction l with
  | nil => rfl
  | cons e rest ih =>
      obtain ⟨k', v'⟩ := e
      simp only [List.map_cons, List.mem_cons] at h
      push_neg at h
      have hne : ¬ k' = k := fun hh => h.1 hh.symm
      simp [lookupJ, hne, ih h.2]

theorem mergeKeySpec_none (x : Option JVal) : mergeKeySpec x none = x := by
  cases x with
  | none => rfl
  | some v => cases v <;> rfl

theorem lookupJ_mergeObj_of_none (d s : List (String × JVal)) (k : String)
    (h : lookupJ k s = none) : lookupJ k (mergeObj d s) = lookupJ k d := by
  induction s generalizing d with
  | nil => rfl
  | cons e rest ih =>
      obtain ⟨k0, sv⟩ := e
      rw [mergeObj_cons]
      by_cases hk : k0 = k
      · subst hk; simp [lookupJ] at h
      · have hrest : lookupJ k rest = none := by simpa [lookupJ, hk] using h
        rw [ih _ hrest, lookupJ_mergeStep_ne _ _ _ _ hk]

/-! ## C1: key-level behaviour of the precedence merge -/

theorem mergeKeySpec_none_left (x : Option JVal) : mergeKeySpec none x = x := by
  cases x with
  | none => rfl
  | some v => cases v <;> rfl

theorem mergeKeySpec_some_some (dv sv : JVal) :
    mergeKeySpec (some dv) (some sv)
      = some (if isUndef sv then dv else mergeVal dv sv) := by
  cases hsv : isUndef sv
  · cases dv <;> cases sv <;> simp_all [mergeKeySpec, mergeVal, isUndef]
  · have hu : sv = JVal.undef := by cases sv <;> simp_all [isUndef]
    subst hu
    cases dv <;> simp [mergeKeySpec, isUndef]

/-- C1 (amended): in the deep merge used for the four-source precedence
merge, for every key the merged value is: the destination value when the
later source lacks the key; the recursive key-by-key merge when both
sides hold mappings; when both sides hold sequences, the element-wise
merge in which each shared index combines the two elements by these same
rules — stated by the second conjunct, which characterizes the sequence
merge index by index through the same `mergeKeySpec`, so container
elements merge recursively, an explicitly-undefined later element keeps
the earlier one, any other later element wins, and the longer sequence's
tail survives; the destination value when the later value is explicitly
`undefined`; and the later source's value outright otherwise (including a
scalar replacing a mapping and vice versa). -/
theorem merge_keywise_last_write_wins :
    (∀ (d s : List (String × JVal)), (s.map Prod.fst).Nodup → ∀ (k : String),
        lookupJ k (mergeObj d s) = mergeKeySpec (lookupJ k d) (lookupJ k s))
    ∧ (∀ (da sa : List JVal) (i : Nat),
        (mergeArr da sa)[i]? = mergeKeySpec da[i]? sa[i]?) := by
  constructor
  · intro d s hs k
    induction s generalizing d with
    | nil => rw [mergeObj_nil]; exact (mergeKeySpec_none _).symm
    | cons e rest ih =>
        obtain ⟨k0, sv⟩ := e
        simp only [List.map_cons, List.nodup_cons] at hs
        rw [mergeObj_cons]
        by_cases hk : k0 = k
        · subst hk
          have hnone : lookupJ k0 rest = none :=
            lookupJ_eq_none_of_not_mem _ _ hs.1
          rw [ih _ hs.2, hnone, mergeKeySpec_none, lookupJ_mergeStep_self]
          simp [lookupJ]
        · rw [ih _ hs.2, lookupJ_mergeStep_ne _ _ _ _ hk]
          simp [lookupJ, hk]
  · intro da sa i
    induction da generalizing sa i with
    | nil =>
        cases sa with
        | nil =>
            rw [show mergeArr ([] : List JVal) [] = [] from rfl]
            simp [mergeKeySpec_none]
        | cons sv s =>
            rw [show mergeArr [] (sv :: s) = sv :: s from rfl]
            simp [mergeKeySpec_none_left]
    | cons dv d ih =>
        cases sa with
        | nil =>
            rw [show mergeArr (dv :: d) [] = dv :: d from rfl]
            simp [mergeKeySpec_none]
        | cons sv s =>
            rw [show mergeArr (dv :: d) (sv :: s)
              = (if isUndef sv then dv else mergeVal dv sv) :: mergeArr d s from rfl]
            cases i with
            | zero => simp [mergeKeySpec_some_some]
            | succ n => simp [ih]

/-- Witness for C1: the key-level characterization applied at a concrete
destination, source and key, and the element-level characterization at a
concrete pair of sequences holding mappings at a shared index. -/
theorem merge_keywise_last_write_wins_witness :
    lookupJ "a" (mergeObj [("a", JVal.num 1)] [("a", JVal.num 2), ("b", JVal.str "x")])
      = mergeKeySpec (lookupJ "a" [("a", JVal.num 1)])
          (lookupJ "a" [("a", JVal.num 2), ("b", JVal.str "x")])
    ∧ (mergeArr [JVal.obj [("x", JVal.num 1)]] [JVal.obj [("y", JVal.num 2)]])[0]?
        = mergeKeySpec [JVal.obj [("x", JVal.num 1)]][0]?
            [JVal.obj [("y", JVal.num 2)]][0]? :=
  ⟨merge_keywise_last_write_wins.1 [("a", JVal.num 1)]
      [("a", JVal.num 2), ("b", JVal.str "x")] (by decide) "a",
   merge_keywise_last_write_wins.2 [JVal.obj [("x", JVal.num 1)]]
      [JVal.obj [("y", JVal.num 2)]] 0⟩

/-- C1 (counterexample): the claim predicts that a later sequence value
replaces an earlier sequence wholesale, i.e. that the merged value at key
`a` is `[9]`; the merge implemented by the source (lodash `_.merge`)
instead merges sequences index by index, producing `[9, 2, 3]`. -/
theorem merge_sequences_elementwise_cex :
    mergeObj [("a", JVal.arr [JVal.num 1, JVal.num 2, JVal.num 3])]
        [("a", JVal.arr [JVal.num 9])]
      = [("a", JVal.arr [JVal.num 9, JVal.num 2, JVal.num 3])]
    ∧ lookupJ "a" (mergeObj [("a", JVal.arr [JVal.num 1, JVal.num 2, JVal.num 3])]
        [("a", JVal.arr [JVal.num 9])]) ≠ some (JVal.arr [JVal.num 9]) := by
  decide

/-! ## C2: the Pruner removes exactly the enabled empty shapes -/

theorem keepValue_eq_not_isEmptyEnabled (o : PruneOptions) (v : JVal) :
    keepValue o v = !(isEmptyEnabled o v) := by
  unfold keepValue isEmptyEnabled
  cases h1 : o.emptyObjects && isEmptyObjV v <;>
    cases h2 : o.emptyArrays && isEmptyArrV v <;>
      cases h3 : o.emptyStrings && isEmptyStrV v <;>
        cases h4 : o.nullValues && isNullV v <;>
          cases h5 : o.undefinedValues && isUndef v <;>
            simp [h1, h2, h3, h4, h5]

theorem cleanObj_eq_filter_map (o : PruneOptions) (kvs : List (String × JVal)) :
    cleanObj o kvs
      = (kvs.map (fun e => (e.1, cleanDeep o e.2))).filter
          (fun e => !(isEmptyEnabled o e.2)) := by
  induction kvs with
  | nil => rfl
  | cons e rest ih =>
      obtain ⟨k, v⟩ := e
      by_cases h : isEmptyEnabled o (cleanDeep o v) = true
      · simp [cleanObj, keepValue_eq_not_isEmptyEnabled, h, ih]
      · simp [cleanObj, keepValue_eq_not_isEmptyEnabled, h, ih]

theorem cleanDeep_scalar (o : PruneOptions) (v : JVal) (h : isScalar v = true) :
    cleanDeep o v = v := by
  cases v <;> simp_all [isScalar, cleanDeep]

theorem cleanDeep_eq_scalar (o : PruneOptions) (w v : JVal) (hv : isScalar v = true)
    (h : cleanDeep o w = v) : w = v := by
  cases w with
  | arr xs => rw [← h] at hv; simp [cleanDeep, isScalar] at hv
  | obj kvs => rw [← h] at hv; simp [cleanDeep, isScalar] at hv
  | str s => exact h
  | num n => exact h
  | bool b => exact h
  | null => exact h
  | undef => exact h
  | nan => exact h

/-- C2: the Pruner removes exactly the five enumerated empty shapes (empty
sequence, empty mapping, empty string, `null`, `undefined`) whose flags are
enabled — an object's entries survive, with their values recursively
pruned, precisely when the pruned value is not an enabled empty shape —
and every scalar entry other than those shapes is preserved unchanged; in
particular `0` and `false` are never among the removable shapes. -/
theorem pruner_removes_exactly_empty (o : PruneOptions) (kvs : List (String × JVal)) :
    cleanObj o kvs
        = (kvs.map (fun e => (e.1, cleanDeep o e.2))).filter
            (fun e => !(isEmptyEnabled o e.2))
    ∧ (∀ (k : String) (v : JVal), isScalar v = true →
        ((k, v) ∈ cleanObj o kvs ↔ ((k, v) ∈ kvs ∧ isEmptyEnabled o v = false)))
    ∧ isEmptyEnabled o (JVal.num 0) = false
    ∧ isEmptyEnabled o (JVal.bool false) = false := by
  refine ⟨cleanObj_eq_filter_map o kvs, ?_, ?_, ?_⟩
  · intro k v hv
    rw [cleanObj_eq_filter_map]
    constructor
    · intro hmem
      rw [List.mem_filter] at hmem
      obtain ⟨hmap, hp⟩ := hmem
      rw [List.mem_map] at hmap
      obtain ⟨⟨k0, w⟩, hw, heq⟩ := hmap
      have hk : k0 = k := congrArg Prod.fst heq
      have hv2 : cleanDeep o w = v := congrArg Prod.snd heq
      have hwv : w = v := cleanDeep_eq_scalar o w v hv hv2
      subst hk; subst hwv
      exact ⟨hw, by simpa using hp⟩
    · rintro ⟨hmem, hfalse⟩
      rw [List.mem_filter]
      refine ⟨?_, by simp [hfalse]⟩
      rw [List.mem_map]
      exact ⟨(k, v), hmem, by simp [cleanDeep_scalar o v hv]⟩
  · simp [isEmptyEnabled, isEmptyArrV, isEmptyObjV, isEmptyStrV, isNullV, isUndef]
  · simp [isEmptyEnabled, isEmptyArrV, isEmptyObjV, isEmptyStrV, isNullV, isUndef]

/-- Witness for C2: a key holding `0` survives pruning with every flag
enabled, while a sibling `null` key is removed. -/
theorem pruner_removes_exactly_empty_witness :
    ("a", JVal.num 0) ∈ cleanObj {} [("a", JVal.num 0), ("b", JVal.null)] :=
  (((pruner_removes_exactly_empty {} [("a", JVal.num 0), ("b", JVal.null)]).2.1
    "a" (JVal.num 0) rfl).mpr (by decide))

/-! ## C7: pruning is idempotent -/

mutual
theorem cleanDeep_idem (o : PruneOptions) :
    (v : JVal) → cleanDeep o (cleanDeep o v) = cleanDeep o v
  | JVal.str _ => rfl
  | JVal.num _ => rfl
  | JVal.bool _ => rfl
  | JVal.null => rfl
  | JVal.undef => rfl
  | JVal.nan => rfl
  | JVal.arr xs => by
      rw [show cleanDeep o (JVal.arr xs) = JVal.arr (cleanArr o xs) from rfl,
        show cleanDeep o (JVal.arr (cleanArr o xs))
          = JVal.arr (cleanArr o (cleanArr o xs)) from rfl,
        cleanArr_idem o xs]
  | JVal.obj kvs => by
      rw [show cleanDeep o (JVal.obj kvs) = JVal.obj (cleanObj o kvs) from rfl,
        show cleanDeep o (JVal.obj (cleanObj o kvs))
          = JVal.obj (cleanObj o (cleanObj o kvs)) from rfl,
        cleanObj_idem o kvs]

theorem cleanArr_idem (o : PruneOptions) :
    (xs : List JVal) → cleanArr o (cleanArr o xs) = cleanArr o xs
  | [] => rfl
  | v :: rest => by
      rw [show cleanArr o (v :: rest)
        = if keepValue o (cleanDeep o v) then cleanDeep o v :: cleanArr o rest
          else cleanArr o rest from rfl]
      by_cases h : keepValue o (cleanDeep o v) = true
      · rw [if_pos h,
          show cleanArr o (cleanDeep o v :: cleanArr o rest)
            = if keepValue o (cleanDeep o (cleanDeep o v)) then
                cleanDeep o (cleanDeep o v) :: cleanArr o (cleanArr o rest)
              else cleanArr o (cleanArr o rest) from rfl,
          cleanDeep_idem o v, if_pos h, cleanArr_idem o rest]
      · rw [if_neg h, cleanArr_idem o rest]

theorem cleanObj_idem (o : PruneOptions) :
    (kvs : List (String × JVal)) → cleanObj o (cleanObj o kvs) = cleanObj o kvs
  | [] => rfl
  | (k, v) :: rest => by
      rw [show cleanObj o ((k, v) :: rest)
        = if keepValue o (cleanDeep o v) then (k, cleanDeep o v) :: cleanObj o rest
          else cleanObj o rest from rfl]
      by_cases h : keepValue o (cleanDeep o v) = true
      · rw [if_pos h,
          show cleanObj o ((k, cleanDeep o v) :: cleanObj o rest)
            = if keepValue o (cleanDeep o (cleanDeep o v)) then
                (k, cleanDeep o (cleanDeep o v)) :: cleanObj o (cleanObj o rest)
              else cleanObj o (cleanObj o rest) from rfl,
          cleanDeep_idem o v, if_pos h, cleanObj_idem o rest]
      · rw [if_neg h, cleanObj_idem o rest]
end

/-- C7: pruning is idempotent — for every value and every flag setting,
pruning a pruned value changes nothing. -/
theorem prune_idempotent (o : PruneOptions) (x : JVal) :
    cleanDeep o (cleanDeep o x) = cleanDeep o x :=
  cleanDeep_idem o x

/-! ## C5: a pruned CLI source never overrides file-based values -/

theorem lookupJ_cleanObj_none (cli : List (String × JVal)) (k : String)
    (hk : ∀ w, (k, w) ∈ cli → w = JVal.null ∨ w = JVal.undef ∨ w = JVal.str "") :
    lookupJ k (cleanObj {} cli) = none := by
  induction cli with
  | nil => rfl
  | cons e rest ih =>
      obtain ⟨k0, w⟩ := e
      have ihr := ih (fun w hw => hk w (List.mem_cons_of_mem _ hw))
      by_cases hkk : k0 = k
      · subst hkk
        rcases hk w (List.mem_cons_self _ _) with h | h | h <;> subst h <;>
          simpa [cleanObj, cleanDeep, keepValue, isEmptyObjV, isEmptyArrV,
            isEmptyStrV, isNullV, isUndef] using ihr
      · by_cases hkeep : keepValue {} (cleanDeep {} w) = true
        · simp [cleanObj, hkeep, lookupJ, hkk, ihr]
        · simp [cleanObj, hkeep, ihr]

/-- C5: when every value the CLI source holds at a key is `null`,
`undefined` or the empty string, pruning with the default flags removes
the key entirely, and merging the pruned CLI source over the file-based
configuration leaves that key's merged value equal to the file-based
value. -/
theorem pruned_cli_never_overrides (fileCfg cli : List (String × JVal)) (k : String)
    (hk : ∀ w, (k, w) ∈ cli → w = JVal.null ∨ w = JVal.undef ∨ w = JVal.str "") :
    lookupJ k (cleanObj {} cli) = none
    ∧ lookupJ k (mergeObj fileCfg (cleanObj {} cli)) = lookupJ k fileCfg := by
  have h1 := lookupJ_cleanObj_none cli k hk
  exact ⟨h1, lookupJ_mergeObj_of_none _ _ _ h1⟩

/-- Witness for C5: a CLI source holding `port: null` does not override a
file-based `port: 36666`. -/
theorem pruned_cli_never_overrides_witness :
    lookupJ "port" (cleanObj {} [("port", JVal.null)]) = none
    ∧ lookupJ "port" (mergeObj [("port", JVal.num 36666)]
        (cleanObj {} [("port", JVal.null)]))
      = lookupJ "port" [("port", JVal.num 36666)] :=
  pruned_cli_never_overrides [("port", JVal.num 36666)] [("port", JVal.null)] "port"
    (fun _ hw => Or.inl (congrArg Prod.snd (List.mem_singleton.mp hw)))

/-! ## C3: the Peer List Parser -/

theorem splitOnChar_of_not_mem (sep : Char) (a : List Char) (h : sep ∉ a) :
    splitOnChar sep a = [a] := by
  induction a with
  | nil => rfl
  | cons c cs ih =>
      simp only [List.mem_cons] at h
      push_neg at h
      have hc : ¬ (c = sep) := fun hc => h.1 hc.symm
      simp [splitOnChar, ih h.2, hc]

theorem splitOnChar_append (sep : Char) (a b : List Char) (h : sep ∉ a) :
    splitOnChar sep (a ++ sep :: b) = a :: splitOnChar sep b := by
  induction a with
  | nil => simp [splitOnChar]
  | cons c cs ih =>
      simp only [List.mem_cons] at h
      push_neg at h
      have hc : ¬ (c = sep) := fun hc => h.1 hc.symm
      rw [List.cons_append]
      rw [show splitOnChar sep (c :: (cs ++ sep :: b))
          = (match splitOnChar sep (cs ++ sep :: b) with
             | [] => [[c]]
             | g :: gs => (c :: g) :: gs) from by simp [splitOnChar, hc]]
      rw [ih h.2]

theorem jsSplit_data (s : String) (sep : Char) :
    jsSplit s sep = (splitOnChar sep s.data).map (fun cs => String.mk cs) := rfl

theorem data_append_char (s t : String) (c : Char) :
    (s ++ String.singleton c ++ t).data = s.data ++ c :: t.data := by
  rw [String.data_append, String.data_append]
  simp [String.singleton]

/-- C3 (amended): the Peer List Parser splits a string input on `','` and
each entry on `':'`; the first token is the host, and the port is the
second token kept verbatim as a string when it is present and non-empty,
the caller-supplied default port otherwise (a trailing `:` therefore also
falls back to the default); the spec's example yields the string `"36668"`
for the first peer's port, not the number `36668`; any non-string input
yields the empty sequence. -/
theorem extractPeersList_spec :
    (∀ (e rest : String) (dp : JVal), ',' ∉ e.data →
        extractPeersList (JVal.str (e ++ String.singleton ',' ++ rest)) dp
          = extractPeerEntry dp e :: extractPeersList (JVal.str rest) dp)
    ∧ (∀ (host port : String) (dp : JVal),
        ':' ∉ host.data → ':' ∉ port.data → port ≠ "" →
        extractPeerEntry dp (host ++ String.singleton ':' ++ port)
          = ⟨host, JVal.str port⟩)
    ∧ (∀ (host : String) (dp : JVal), ':' ∉ host.data →
        extractPeerEntry dp host = ⟨host, dp⟩)
    ∧ (∀ (host : String) (dp : JVal), ':' ∉ host.data →
        extractPeerEntry dp (host ++ String.singleton ':' ++ "") = ⟨host, dp⟩)
    ∧ (∀ (v dp : JVal), isStr v = false → extractPeersList v dp = [])
    ∧ extractPeersList (JVal.str "10.0.0.1:36668,10.0.0.2") (JVal.num 36666)
        = [⟨"10.0.0.1", JVal.str "36668"⟩, ⟨"10.0.0.2", JVal.num 36666⟩] := by
  refine ⟨?_, ?_, ?_, ?_, ?_, by decide⟩
  · intro e rest dp h
    show (jsSplit (e ++ String.singleton ',' ++ rest) ',').map (extractPeerEntry dp)
      = extractPeerEntry dp e :: (jsSplit rest ',').map (extractPeerEntry dp)
    rw [jsSplit_data, jsSplit_data, data_append_char, splitOnChar_append _ _ _ h]
    simp
  · intro host port dp hh hp hne
    show extractPeerEntry dp (host ++ String.singleton ':' ++ port) = _
    unfold extractPeerEntry
    rw [jsSplit_data, data_append_char, splitOnChar_append _ _ _ hh,
      splitOnChar_of_not_mem _ _ hp]
    simp [hne]
  · intro host dp hh
    unfold extractPeerEntry
    rw [jsSplit_data, splitOnChar_of_not_mem _ _ hh]
    simp
  · intro host dp hh
    unfold extractPeerEntry
    rw [jsSplit_data, data_append_char, splitOnChar_append _ _ _ hh]
    simp [splitOnChar]
  · intro v dp h
    cases v <;> simp_all [extractPeersList, isStr]

/-- Witness for C3: the amended parser law applied to a concrete
`host:port` entry. -/
theorem extractPeersList_spec_witness :
    extractPeerEntry (JVal.num 36666) ("10.0.0.1" ++ String.singleton ':' ++ "36668")
      = ⟨"10.0.0.1", JVal.str "36668"⟩ :=
  extractPeersList_spec.2.1 "10.0.0.1" "36668" (JVal.num 36666)
    (by decide) (by decide) (by decide)

/-- C3 (counterexample): the spec's example claims the first peer record
is `{ip: "10.0.0.1", wsPort: 36668}` with a numeric port; the source keeps
the token produced by `split(':')`, so the port is the string `"36668"`. -/
theorem extractPeersList_port_type_cex :
    extractPeersList (JVal.str "10.0.0.1:36668,10.0.0.2") (JVal.num 36666)
      ≠ [⟨"10.0.0.1", JVal.num 36668⟩, ⟨"10.0.0.2", JVal.num 36666⟩] := by
  decide

/-! ## C4: the Safety Override -/

theorem jsIndexOf_ge_neg1 (xs : List JVal) (x : JVal) : -1 ≤ jsIndexOf xs x := by
  induction xs with
  | nil => simp [jsIndexOf]
  | cons y rest ih =>
      simp only [jsIndexOf]
      cases h : jsStrictEq y x
      · simp only [Bool.false_eq_true, if_false]
        by_cases h2 : jsIndexOf rest x = -1
        · simp [h2]
        · simp [h2]; omega
      · simp

theorem jsIndexOf_ne_neg1_iff (xs : List JVal) (x : JVal) :
    (jsIndexOf xs x ≠ -1) ↔ xs.any (fun y => jsStrictEq y x) = true := by
  induction xs with
  | nil => simp [jsIndexOf]
  | cons y rest ih =>
      simp only [jsIndexOf, List.any_cons]
      cases h : jsStrictEq y x
      · simp only [Bool.false_eq_true, if_false, Bool.false_or]
        by_cases h2 : jsIndexOf rest x = -1
        · simp only [h2, if_pos rfl]
          rw [← ih]
          simp [h2]
        · have hge := jsIndexOf_ge_neg1 rest x
          rw [← ih]
          have hne2 : jsIndexOf rest x + 1 ≠ -1 := by omega
          simp only [if_neg h2]
          constructor
          · intro _; exact h2
          · intro _; exact hne2
      · simp

/-- C4: the Safety Override sets `forging.force` to `false` exactly when
`forging.force` is truthy and the config's `nethash` occurs (under strict
equality) in `constants.nethashes`; when `forging.force` is already false
(or otherwise falsy), or the nethash is absent from the list, the config
is returned unchanged — in particular the override never flips
`forging.force` from false to true. -/
theorem validateForce_spec (c : JVal) :
    (truthy (getKey (getKey c "forging") "force") = false → validateForce c = c)
    ∧ (truthy (getKey (getKey c "forging") "force") = true →
        ∀ xs, getKey (getKey c "constants") "nethashes" = JVal.arr xs →
          ((xs.any (fun y => jsStrictEq y (getKey c "nethash")) = false →
              validateForce c = c)
           ∧ (xs.any (fun y => jsStrictEq y (getKey c "nethash")) = true →
              validateForce c
                = setKeyJ c "forging"
                    (setKeyJ (getKey c "forging") "force" (JVal.bool false))
              ∧ getKey (getKey (validateForce c) "forging") "force"
                  = JVal.bool false))) := by
  constructor
  · intro hf
    unfold validateForce
    simp [hf]
  · intro hf xs hxs
    constructor
    · intro hany
      have hidx : jsIndexOf xs (getKey c "nethash") = -1 := by
        by_contra hne
        exact absurd ((jsIndexOf_ne_neg1_iff xs (getKey c "nethash")).mp hne)
          (by simp [hany])
      unfold validateForce
      simp [hf, hxs, hidx]
    · intro hany
      have hidx : jsIndexOf xs (getKey c "nethash") ≠ -1 :=
        (jsIndexOf_ne_neg1_iff _ _).mpr hany
      have heq : validateForce c
          = setKeyJ c "forging"
              (setKeyJ (getKey c "forging") "force" (JVal.bool false)) := by
        unfold validateForce
        simp [hf, hxs, hidx]
      refine ⟨heq, ?_⟩
      rw [heq]
      cases c with
      | obj kvs =>
          cases hfv : getKey (JVal.obj kvs) "forging" with
          | obj fkvs =>
              simp [setKeyJ, getKey, lookupJ_setKey_self, hfv]
          | str s => rw [hfv] at hf; simp [getKey, truthy] at hf
          | num n => rw [hfv] at hf; simp [getKey, truthy] at hf
          | bool b => rw [hfv] at hf; simp [getKey, truthy] at hf
          | null => rw [hfv] at hf; simp [getKey, truthy] at hf
          | undef => rw [hfv] at hf; simp [getKey, truthy] at hf
          | nan => rw [hfv] at hf; simp [getKey, truthy] at hf
          | arr xs2 => rw [hfv] at hf; simp [getKey, truthy] at hf
      | str s => simp [getKey, truthy] at hf
      | num n => simp [getKey, truthy] at hf
      | bool b => simp [getKey, truthy] at hf
      | null => simp [getKey, truthy] at hf
      | undef => simp [getKey, truthy] at hf
      | nan => simp [getKey, truthy] at hf
      | arr xs2 => simp [getKey, truthy] at hf

/-- Witness for C4: the override applied to a concrete config whose
nethash `H1` occurs in the constants list turns `forging.force` off. -/
theorem validateForce_spec_witness :
    validateForce
        (JVal.obj
          [("forging", JVal.obj [("force", JVal.bool true)]),
           ("constants", JVal.obj [("nethashes",
              JVal.arr [JVal.str "H1", JVal.str "H2"])]),
           ("nethash", JVal.str "H1")])
      = setKeyJ
          (JVal.obj
            [("forging", JVal.obj [("force", JVal.bool true)]),
             ("constants", JVal.obj [("nethashes",
                JVal.arr [JVal.str "H1", JVal.str "H2"])]),
             ("nethash", JVal.str "H1")])
          "forging"
          (setKeyJ
            (getKey
              (JVal.obj
                [("forging", JVal.obj [("force", JVal.bool true)]),
                 ("constants", JVal.obj [("nethashes",
                    JVal.arr [JVal.str "H1", JVal.str "H2"])]),
                 ("nethash", JVal.str "H1")])
              "forging")
            "force" (JVal.bool false))
    ∧ getKey
        (getKey
          (validateForce
            (JVal.obj
              [("forging", JVal.obj [("force", JVal.bool true)]),
               ("constants", JVal.obj [("nethashes",
                  JVal.arr [JVal.str "H1", JVal.str "H2"])]),
               ("nethash", JVal.str "H1")]))
          "forging")
        "force" = JVal.bool false :=
  ((validateForce_spec _).2 (by decide) [JVal.str "H1", JVal.str "H2"]
      (by decide)).2 (by decide)

/-! ## C6: merge precedence examples -/

/-- C6: merging the four sources in precedence order is last-write-wins on
scalar conflicts and key-by-key on nested mappings: the spec's two worked
examples, computed through the four-way merge exactly as `Config` performs
it. -/
theorem merge_precedence_examples :
    mergeVal (mergeVal (mergeVal
        (JVal.obj [("port", JVal.num 1), ("host", JVal.str "a")])
        (JVal.obj [("port", JVal.num 2)]))
        (JVal.obj []))
        (JVal.obj [("host", JVal.str "b")])
      = JVal.obj [("port", JVal.num 2), ("host", JVal.str "b")]
    ∧ mergeVal (mergeVal (mergeVal
        (JVal.obj [("db", JVal.obj [("name", JVal.str "x"), ("pool", JVal.num 5)])])
        (JVal.obj []))
        (JVal.obj []))
        (JVal.obj [("db", JVal.obj [("name", JVal.str "y")])])
      = JVal.obj [("db", JVal.obj [("name", JVal.str "y"), ("pool", JVal.num 5)])] := by
  decide

/-! ## C9: the validation-failure path -/

/-- C9: when the schema validator reports the merged config invalid, the
pipeline terminates with exit status 1 carrying every reported validation
error and never returns a config; the genesis/constants/exceptions
attachment and the Safety Override run only on the valid branch. -/
theorem config_validation_failure (P : ConfigParams) (pclo : Bool) :
    ((P.validate (configMerged P pclo)).1 = false →
        Config P pclo = Except.error (1, (P.validate (configMerged P pclo)).2)
        ∧ ∀ cfg, Config P pclo ≠ Except.ok cfg)
    ∧ ((P.validate (configMerged P pclo)).1 = true →
        Config P pclo = Except.ok (validateForce (configAttached P pclo))) := by
  unfold Config
  rcases hv : P.validate (configMerged P pclo) with ⟨b, errs⟩
  cases b <;> simp [hv]

/-- A concrete parameter bundle whose validator rejects everything with a
fixed error list. -/
def rejectingParams : ConfigParams :=
  { parseArgv := fun _ => {}
    argv := []
    env := {}
    fs := fun _ => JVal.obj []
    req := fun _ => JVal.obj []
    validate := fun _ => (false, ["Missing required property: port"])
    pkg := {}
    rootPath := "/opt/adamant"
    nonce := "0123456789abcdef" }

/-- Witness for C9: the rejecting validator makes `Config` exit with
status 1 and the reported error list, returning no config. -/
theorem config_validation_failure_witness :
    Config rejectingParams true
        = Except.error (1, ["Missing required property: port"])
    ∧ ∀ cfg, Config rejectingParams true ≠ Except.ok cfg :=
  (config_validation_failure rejectingParams true).1 rfl

/-! ## C10: the `parseCommandLineOptions` flag has no effect -/

/-- A concrete parameter bundle with an accepting validator, file-based
configs carrying `port: 36666`, and a CLI `--port 4000`. -/
def cliPortParams : ConfigParams :=
  { parseArgv := fun _ => { port := JVal.str "4000" }
    argv := ["node", "app.js", "-p", "4000"]
    env := {}
    fs := fun _ => JVal.obj [("port", JVal.num 36666)]
    req := fun _ => JVal.obj []
    validate := fun _ => (true, [])
    pkg := { version := JVal.str "0.9.0", minVersion := JVal.str "0.8.0" }
    rootPath := "/opt/adamant"
    nonce := "0123456789abcdef" }

/-- C10: the chain of option definitions already ends in
`.parse(process.argv)`, so the guarded re-parse of the same `argv` changes
nothing: for every input, `Config` returns the same result whether
`parseCommandLineOptions` is true or false, and a CLI `--port 4000`
overrides the file-based port even when the flag is false. -/
theorem config_parse_flag_no_effect :
    (∀ (P : ConfigParams), Config P true = Config P false)
    ∧ Config cliPortParams false
        = Except.ok (validateForce (configAttached cliPortParams false))
    ∧ getKey (configMerged cliPortParams false) "port" = JVal.num 4000 := by
  refine ⟨?_, rfl, by decide⟩
  intro P
  have hp : configProgram P true = configProgram P false := rfl
  have hm : configMerged P true = configMerged P false := by
    unfold configMerged; rw [hp]
  have ha : configAttached P true = configAttached P false := by
    unfold configAttached; rw [hp, hm]
  unfold Config
  rw [hm, ha]
